import Mathlib

/-!
Formal model of the viettriviaAI realtime voice session manager and its
PCM codec, embedded shallowly from the TypeScript source
(`hooks/useLiveSession.ts`, `components/SettingsModal.tsx`) and, for the
codec whose source file (`utils/audio.ts`) is absent from the tree, from
the specification's description of it.

Time values, audio samples and tool-call arguments are modelled as
rationals; byte payloads as lists of naturals below 256; the mutable
refs of the React hook as fields of an explicit `SessionState` record;
outward-visible actions (callbacks, channel sends) as an explicit list
of `Effect` values returned alongside the new state.
-/

namespace VietTrivia

/-! ## PCM codec (utils/audio.ts is not in the tree; modelled from the spec) -/

/-- Modelled from the spec: `utils/audio.ts` is missing from the source tree;
the spec says samples are clamped to `[-1, 1]` before scaling. -/
def clampUnit (x : ℚ) : ℚ := max (-1) (min 1 x)

/-- Modelled from the spec: linear scaling of a float sample into the signed
16-bit integer range, "clamping out-of-range input defensively". -/
def floatToInt16 (x : ℚ) : ℤ :=
  max (-32768) (min 32767 (round (clampUnit x * 32768)))

/-- Modelled from the spec: little-endian serialization of one signed 16-bit
sample as two bytes (two's complement). -/
def int16ToBytes (i : ℤ) : List ℕ :=
  let u := (i % 65536).toNat
  [u % 256, u / 256]

/-- Modelled from the spec: `createPcmBlob` / `encode` — scale every sample of
the block into the signed 16-bit range and serialize little-endian. -/
def createPcmBlob (samples : List ℚ) : List ℕ :=
  (samples.map (fun x => int16ToBytes (floatToInt16 x))).flatten

/-- Modelled from the spec: read back one little-endian two's-complement
16-bit sample from its two bytes. -/
def bytesToInt16 (lo hi : ℕ) : ℤ :=
  let u := lo + 256 * hi
  if u < 32768 then (u : ℤ) else (u : ℤ) - 65536

/-- Modelled from the spec: rescale consecutive byte pairs back to
floating-point samples. -/
def decodePairs : List ℕ → List ℚ
  | lo :: hi :: rest => ((bytesToInt16 lo hi : ℚ) / 32768) :: decodePairs rest
  | _ => []

/-- Modelled from the spec: `decodeAudioData` — interprets the byte payload as
16-bit PCM, rescaling to floats; "fails with a DecodeError if the byte
length is not a whole multiple of the sample frame size". -/
def decodeAudioData (bytes : List ℕ) : Except String (List ℚ) :=
  if bytes.length % 2 = 0 then Except.ok (decodePairs bytes)
  else Except.error "DecodeError: byte length is not a multiple of 2"

/-! ## Game settings (components/SettingsModal.tsx) -/

inductive Difficulty where
  | easy | medium | hard
  deriving DecidableEq, Repr

structure GameSettings where
  difficulty : Difficulty
  roundDuration : ℤ
  winningScore : ℤ
  musicVolume : ℚ
  deriving DecidableEq, Repr

/-- `SettingsModal.handleScoreChange`: clamp the new winning score into
`[3, 20]`, leaving every other field alone. -/
def handleScoreChange (settings : GameSettings) (delta : ℤ) : GameSettings :=
  { settings with winningScore := max 3 (min 20 (settings.winningScore + delta)) }

/-! ## Session manager state (hooks/useLiveSession.ts)

Each `useRef`/`useState` cell of the hook becomes a field. Opaque browser
handles (audio contexts, media stream, script processor, live session and
its promise) are modelled as `Option Unit`: present or absent. The
`Set<AudioBufferSourceNode>` of scheduled-but-unfinished buffers becomes a
list of identifiers drawn from a fresh-id counter. -/

structure SessionState where
  isConnected : Bool
  isConnecting : Bool
  error : Option String
  isConnectedRef : Bool
  audioContext : Option Unit
  inputAudioContext : Option Unit
  mediaStream : Option Unit
  session : Option Unit
  nextStartTime : ℚ
  sources : List ℕ
  scriptProcessor : Option Unit
  sessionPromise : Option Unit
  freshId : ℕ
  hasScoreCallback : Bool
  deriving DecidableEq, Repr

/-- Outward-visible actions of the manager: host callbacks and channel
traffic, in the order they are performed. -/
inductive Effect where
  | scoreCallback (player ai : ℚ)
  | toolResponse (id name result : String)
  | volumeChange (v : ℚ)
  | sendFrame (bytes : List ℕ)
  | sourceStart (time : ℚ)
  | sourceStop (id : ℕ)
  | sessionClose
  | outputContextClose
  | inputContextClose
  | trackStop
  | getUserMedia
  | openChannel
  deriving DecidableEq, Repr

/-- Which of the try/catch-wrapped external calls inside `disconnect` throw.
The source wraps `session.close()`, each `source.stop()` and both
`AudioContext.close()` calls in `try { ... } catch (e) {}`; this record is
the failure oracle those catches absorb. -/
structure FailSpec where
  closeSessionThrows : Bool
  stopSourceThrows : ℕ → Bool
  closeOutputThrows : Bool
  closeInputThrows : Bool

/-- One failure oracle under which no external call throws. -/
def noFail : FailSpec :=
  { closeSessionThrows := false
    stopSourceThrows := fun _ => false
    closeOutputThrows := false
    closeInputThrows := false }

/-- `disconnect` (useLiveSession.ts lines 64–105): clear the connected flag,
detach the script processor, close the session (caught), drop the session
promise, stop (caught) and clear every scheduled source, close both audio
contexts (caught), stop all microphone tracks, reset the React state flags
and notify the host of zero volume. Each wrapped call's failure is absorbed
by its empty catch block, so the state updates after it still run; the
oracle `f` records which of those calls threw and is visibly unused by any
state update. -/
def disconnect (_f : FailSpec) (s : SessionState) : SessionState × List Effect :=
  let s1 := { s with isConnectedRef := false }
  let s2 := { s1 with scriptProcessor := none }
  let closeEff := if s2.session.isSome then [Effect.sessionClose] else []
  let s3 := { s2 with session := none }
  let s4 := { s3 with sessionPromise := none }
  let stopEffs := s4.sources.map Effect.sourceStop
  let s5 := { s4 with sources := [] }
  let outEff := if s5.audioContext.isSome then [Effect.outputContextClose] else []
  let s6 := { s5 with audioContext := none }
  let inEff := if s6.inputAudioContext.isSome then [Effect.inputContextClose] else []
  let s7 := { s6 with inputAudioContext := none }
  let trackEff := if s7.mediaStream.isSome then [Effect.trackStop] else []
  let s8 := { s7 with mediaStream := none }
  let s9 := { s8 with isConnected := false, isConnecting := false }
  (s9, closeEff ++ stopEffs ++ outEff ++ inEff ++ trackEff ++ [Effect.volumeChange 0])

/-- `connect` (useLiveSession.ts lines 107–141): the guard at the top returns
immediately when a session is already being or has been established;
otherwise the manager enters `Connecting`, clears the error, acquires both
audio contexts and the microphone, resets the playback cursor and opens the
channel. -/
def connect (s : SessionState) : SessionState × List Effect :=
  if s.isConnecting || s.isConnected then (s, [])
  else
    ({ s with isConnecting := true
              error := none
              audioContext := some ()
              inputAudioContext := some ()
              mediaStream := some ()
              nextStartTime := 0
              sessionPromise := some () },
     [Effect.getUserMedia, Effect.openChannel])

/-! ## Inbound message handling (useLiveSession.ts onmessage, lines 190–276) -/

/-- One named function invocation of a server tool-call envelope. -/
structure FunctionCall where
  name : String
  id : String
  playerScore : ℚ
  aiScore : ℚ
  deriving DecidableEq, Repr

/-- A `LiveServerMessage` as far as the handler inspects it: an optional
tool-call envelope, an optional base64 audio payload (modelled by its
decoded bytes) and the `interrupted` flag. -/
structure ServerMessage where
  toolCall : Option (List FunctionCall)
  audioData : Option (List ℕ)
  interrupted : Bool
  deriving DecidableEq, Repr

/-- Lines 195–231: for each invocation named `updateScore`, invoke the score
callback (when the host supplied one), then immediately send one
acknowledgement `{id, name, {result: "OK"}}` through `sessionRef` (when it
is set). No ref is mutated. -/
def handleToolCall (s : SessionState) (fcs : List FunctionCall) : List Effect :=
  fcs.flatMap fun fc =>
    if fc.name = "updateScore" then
      (if s.hasScoreCallback then [Effect.scoreCallback fc.playerScore fc.aiScore] else []) ++
      (if s.session.isSome then [Effect.toolResponse fc.id fc.name "OK"] else [])
    else []

/-- Lines 253–255: a newly decoded buffer starts at
`max(currentClockTime, nextStartTime)` and the cursor advances by its
duration. Returns (start time, new cursor). -/
def scheduleStep (next now dur : ℚ) : ℚ × ℚ :=
  let start := max now next
  (start, start + dur)

/-- Lines 249–262: schedule a decoded buffer on the output clock and add it
to the active playback set. The buffer's duration is its sample count over
the fixed 24 kHz output rate. Returns the new state and the start time. -/
def scheduleBuffer (s : SessionState) (samples : List ℚ) (now : ℚ) :
    SessionState × ℚ :=
  let dur := (samples.length : ℚ) / 24000
  let p := scheduleStep s.nextStartTime now dur
  ({ s with nextStartTime := p.2
            sources := s.sources ++ [s.freshId]
            freshId := s.freshId + 1 },
   p.1)

/-- Line 260–262: a buffer's `ended` notification removes it from the active
playback set. -/
def onSourceEnded (s : SessionState) (id : ℕ) : SessionState :=
  { s with sources := s.sources.filter (fun x => x ≠ id) }

/-- Lines 268–275: on the `interrupted` flag, stop every scheduled source,
clear the set and reset the cursor to the origin. -/
def handleInterruptedFlag (s : SessionState) (msg : ServerMessage) :
    SessionState × List Effect :=
  if msg.interrupted then
    ({ s with sources := [], nextStartTime := 0 }, s.sources.map Effect.sourceStop)
  else (s, [])

/-- `onmessage` (lines 190–276). `now` is the output clock at scheduling
time; `connAfterDecode` is the value `isConnectedRef.current` holds when the
asynchronous decode completes (a disconnect may race with the decode). The
top guard drops the whole message when the manager is no longer connected;
a decode failure is caught and the chunk dropped, the rest of the handler
continuing; the post-decode guard returns early from the handler. -/
def onmessage (s : SessionState) (msg : ServerMessage) (now : ℚ)
    (connAfterDecode : Bool) : SessionState × List Effect :=
  if !s.isConnectedRef then (s, [])
  else
    let toolEffs := match msg.toolCall with
      | some fcs => handleToolCall s fcs
      | none => []
    match msg.audioData, s.audioContext with
    | some bytes, some _ =>
      match decodeAudioData bytes with
      | Except.error _ =>
        let p := handleInterruptedFlag s msg
        (p.1, toolEffs ++ p.2)
      | Except.ok samples =>
        if !connAfterDecode then (s, toolEffs)
        else
          let q := scheduleBuffer s samples now
          let p := handleInterruptedFlag q.1 msg
          (p.1, toolEffs ++ [Effect.sourceStart q.2] ++ p.2)
    | _, _ =>
      let p := handleInterruptedFlag s msg
      (p.1, toolEffs ++ p.2)

/-! ## Outbound streaming (useLiveSession.ts onaudioprocess, lines 165–185) -/

/-- Lines 165–171: when a microphone block becomes ready, the handler bails
out before encoding anything unless the manager is still connected and a
session promise exists; otherwise it encodes the block. Returns the frame
handed to the promise continuation, if any. -/
def onaudioprocess (s : SessionState) (inputData : List ℚ) : Option (List ℕ) :=
  if !s.isConnectedRef || s.sessionPromise.isNone then none
  else some (createPcmBlob inputData)

/-- Lines 172–184: the promise continuation re-checks the connected flag (at
its own, possibly later, time) before sending; a throwing send is caught and
the frame dropped. -/
def deliverFrame (s : SessionState) (blob : List ℕ) (sessionOk : Bool) :
    List Effect :=
  if s.isConnectedRef && sessionOk then [Effect.sendFrame blob] else []

/-! ## Error paths (useLiveSession.ts onerror lines 284–303, connect catch
lines 311–317) -/

/-- Bool-valued substring test mirroring JavaScript `String.includes`. -/
def charsStartWith : List Char → List Char → Bool
  | _, [] => true
  | [], _ :: _ => false
  | h :: hs, n :: ns => h == n && charsStartWith hs ns

/-- Bool-valued substring test mirroring JavaScript `String.includes`. -/
def charsInclude : List Char → List Char → Bool
  | [], needle => charsStartWith [] needle
  | h :: hs, needle => charsStartWith (h :: hs) needle || charsInclude hs needle

/-- `hay.includes(needle)` on strings. -/
def strIncludes (hay needle : String) : Bool :=
  charsInclude hay.data needle.data

/-- `onerror` (lines 284–303): an error whose message includes "interrupted"
or "abort" is swallowed; any other error sets the error state to its message
(or a default when there is no usable message) and tears the session down
via `disconnect`. `err` is the error's `message` property, absent when the
thrown value carries none. -/
def onerror (f : FailSpec) (s : SessionState) (err : Option String) :
    SessionState × List Effect :=
  match err with
  | some m =>
    if strIncludes m "interrupted" || strIncludes m "abort" then (s, [])
    else
      let errorMessage := if m = "" then "Connection error detected." else m
      disconnect f { s with error := some errorMessage }
  | none => disconnect f { s with error := some "Connection error detected." }

/-- The `catch` of `connect` (lines 311–317): a failed connect step sets the
error state, clears the connecting flags and runs the same teardown as an
explicit disconnect. -/
def connectFailure (f : FailSpec) (s : SessionState) (err : Option String) :
    SessionState × List Effect :=
  let msg := match err with
    | some m => if m = "" then "Failed to connect. Please check API Key or Network." else m
    | none => "Failed to connect. Please check API Key or Network."
  disconnect f { s with error := some msg, isConnecting := false, isConnectedRef := false }

/-! ## Iterated scheduling

`scheduleTimes` iterates the cursor update of lines 253–255 over a whole
run of inbound buffers: each element of `arr` is the pair (output clock
value when that buffer is scheduled, that buffer's duration), and the
result is the list of computed start times. -/

def scheduleTimes : ℚ → List (ℚ × ℚ) → List ℚ
  | _, [] => []
  | next, a :: rest =>
    let p := scheduleStep next a.1 a.2
    p.1 :: scheduleTimes p.2 rest

/-! ## Concrete states used by the witnesses -/

/-- A representative fully connected state with two buffers still playing. -/
def stConnected : SessionState :=
  { isConnected := true
    isConnecting := false
    error := none
    isConnectedRef := true
    audioContext := some ()
    inputAudioContext := some ()
    mediaStream := some ()
    session := some ()
    nextStartTime := 7/2
    sources := [0, 1]
    scriptProcessor := some ()
    sessionPromise := some ()
    freshId := 2
    hasScoreCallback := true }

/-- A representative state after a disconnect has begun. -/
def stTornDown : SessionState :=
  { isConnected := false
    isConnecting := false
    error := none
    isConnectedRef := false
    audioContext := some ()
    inputAudioContext := none
    mediaStream := none
    session := none
    nextStartTime := 7/2
    sources := []
    scriptProcessor := none
    sessionPromise := some ()
    freshId := 2
    hasScoreCallback := true }

/-! ## Basic facts -/

theorem scheduleTimes_length (next : ℚ) (arr : List (ℚ × ℚ)) :
    (scheduleTimes next arr).length = arr.length := by
  induction arr generalizing next with
  | nil => rfl
  | cons a rest ih => simp [scheduleTimes, scheduleStep, ih]

/-! ## Claim theorems -/

/-- C10: for every current settings value and every press of the
winning-score increment or decrement button, the resulting `winningScore`
lies in the closed range `[3, 20]` (so a value already in range can never
leave it through these controls), and the other settings fields are
unchanged by the score buttons. -/
theorem winningScore_clamped (s : GameSettings) (delta : ℤ) :
    3 ≤ (handleScoreChange s delta).winningScore ∧
    (handleScoreChange s delta).winningScore ≤ 20 ∧
    (handleScoreChange s delta).difficulty = s.difficulty ∧
    (handleScoreChange s delta).roundDuration = s.roundDuration ∧
    (handleScoreChange s delta).musicVolume = s.musicVolume :=
  ⟨le_max_left _ _, max_le (by norm_num) (min_le_left _ _), rfl, rfl, rfl⟩

/-- C4: calling `connect()` while the manager is already Connecting or
Connected returns immediately: the state is unchanged and no microphone
stream is acquired and no channel is opened. -/
theorem connect_noop_when_active (s : SessionState)
    (h : s.isConnecting = true ∨ s.isConnected = true) :
    connect s = (s, []) := by
  unfold connect
  rcases h with h | h <;> simp [h]

theorem connect_noop_when_active_witness :
    connect stConnected = (stConnected, []) :=
  connect_noop_when_active stConnected (Or.inr rfl)

/-- C3: `disconnect()` is idempotent and callable from any state: its result
does not depend on which wrapped teardown call throws (a failure in one step
does not prevent the next), it always leaves the state Disconnected —
connection flags false, active playback set empty, every resource handle
null — it notifies the host of zero volume, and running it a second time
leaves the state fixed. -/
theorem disconnect_contract (f g : FailSpec) (s : SessionState) :
    (disconnect f s).1 = (disconnect g s).1 ∧
    (disconnect f s).1.isConnected = false ∧
    (disconnect f s).1.isConnecting = false ∧
    (disconnect f s).1.isConnectedRef = false ∧
    (disconnect f s).1.sources = [] ∧
    (disconnect f s).1.session = none ∧
    (disconnect f s).1.sessionPromise = none ∧
    (disconnect f s).1.audioContext = none ∧
    (disconnect f s).1.inputAudioContext = none ∧
    (disconnect f s).1.mediaStream = none ∧
    (disconnect f s).1.scriptProcessor = none ∧
    Effect.volumeChange 0 ∈ (disconnect f s).2 ∧
    (disconnect g (disconnect f s).1).1 = (disconnect f s).1 := by
  unfold disconnect
  simp

/-- C5: on an interruption signal, every buffer in the active playback set
is stopped, the set is cleared, and the playback cursor is reset to 0, so a
buffer scheduled next starts at the current clock time. -/
theorem interruption_resets_playback (s : SessionState) (now : ℚ)
    (hconn : s.isConnectedRef = true) (hnow : 0 ≤ now) :
    (onmessage s ⟨none, none, true⟩ now true).1.sources = [] ∧
    (onmessage s ⟨none, none, true⟩ now true).1.nextStartTime = 0 ∧
    (onmessage s ⟨none, none, true⟩ now true).2 = s.sources.map Effect.sourceStop ∧
    ∀ samples : List ℚ,
      (scheduleBuffer (onmessage s ⟨none, none, true⟩ now true).1 samples now).2 = now := by
  refine ⟨?_, ?_, ?_, ?_⟩ <;>
    simp [onmessage, handleInterruptedFlag, hconn, scheduleBuffer, scheduleStep,
      max_eq_left hnow]

theorem interruption_resets_playback_witness :
    (onmessage stConnected ⟨none, none, true⟩ 5 true).1.sources = [] ∧
    (onmessage stConnected ⟨none, none, true⟩ 5 true).1.nextStartTime = 0 ∧
    (onmessage stConnected ⟨none, none, true⟩ 5 true).2 =
      stConnected.sources.map Effect.sourceStop ∧
    (scheduleBuffer (onmessage stConnected ⟨none, none, true⟩ 5 true).1 [0, 0] 5).2 = 5 := by
  have h := interruption_resets_playback stConnected 5 rfl (by norm_num)
  exact ⟨h.1, h.2.1, h.2.2.1, h.2.2.2 [0, 0]⟩

/-- C2: an inbound message carrying a tool call named `updateScore` with
numeric arguments causes exactly one score-callback invocation with
`{player, ai}` followed by exactly one acknowledgement referencing the same
invocation id, the callback strictly before the acknowledgement; no state
is mutated. -/
theorem updateScore_invokes_and_acks (s : SessionState) (id : String)
    (p a now : ℚ) (flag : Bool)
    (hconn : s.isConnectedRef = true) (hsess : s.session = some ())
    (hcb : s.hasScoreCallback = true) :
    onmessage s ⟨some [⟨"updateScore", id, p, a⟩], none, false⟩ now flag =
      (s, [Effect.scoreCallback p a, Effect.toolResponse id "updateScore" "OK"]) := by
  simp [onmessage, handleToolCall, handleInterruptedFlag, hconn, hsess, hcb]

theorem updateScore_invokes_and_acks_witness :
    onmessage stConnected ⟨some [⟨"updateScore", "call-7", 3, 2⟩], none, false⟩ 1 true =
      (stConnected,
       [Effect.scoreCallback 3 2, Effect.toolResponse "call-7" "updateScore" "OK"]) :=
  updateScore_invokes_and_acks stConnected "call-7" 3 2 1 true rfl rfl rfl

/-- C6: after disconnect has begun (connected flag cleared) the manager acts
on no audio: a ready microphone block is neither encoded nor queued, a frame
already queued is not sent when the flag is re-checked at promise
resolution, an inbound message is dropped whole by the pre-decode check, and
even a message whose decode completes after disconnect began is dropped by
the post-decode re-check, mutating nothing. -/
theorem no_activity_after_disconnect (s t : SessionState)
    (inputData : List ℚ) (blob bytes : List ℕ) (msg : ServerMessage)
    (now : ℚ) (ok : Bool)
    (hs : s.isConnectedRef = false) :
    onaudioprocess s inputData = none ∧
    deliverFrame s blob ok = [] ∧
    onmessage s msg now true = (s, []) ∧
    (t.isConnectedRef = true → t.audioContext = some () → bytes.length % 2 = 0 →
      onmessage t ⟨none, some bytes, false⟩ now false = (t, [])) := by
  refine ⟨?_, ?_, ?_, fun ht hctx hlen => ?_⟩
  · simp [onaudioprocess, hs]
  · simp [deliverFrame, hs]
  · simp [onmessage, hs]
  · simp [onmessage, handleToolCall, decodeAudioData, ht, hctx, hlen]

theorem no_activity_after_disconnect_witness :
    onaudioprocess stTornDown [0, 1/2] = none ∧
    deliverFrame stTornDown [0, 0] true = [] ∧
    onmessage stTornDown ⟨none, some [0, 0], false⟩ 2 true = (stTornDown, []) ∧
    onmessage stConnected ⟨none, some [0, 0], false⟩ 2 false = (stConnected, []) := by
  have h := no_activity_after_disconnect stTornDown stConnected [0, 1/2] [0, 0] [0, 0]
    ⟨none, some [0, 0], false⟩ 2 true rfl
  exact ⟨h.1, h.2.1, h.2.2.1, h.2.2.2 rfl rfl rfl⟩

/-- C7: a channel error whose message indicates the condition is merely
interrupted or aborted is swallowed — state untouched, no teardown, no error
set; every other channel error sets the error state to its message and runs
exactly the teardown of an explicit `disconnect`; and a failed connect step
likewise records a non-empty error message and runs that same teardown,
leaving no resource handle held. -/
theorem error_policy (f : FailSpec) (s : SessionState) (m : String) :
    ((strIncludes m "interrupted" || strIncludes m "abort") = true →
      onerror f s (some m) = (s, [])) ∧
    ((strIncludes m "interrupted" || strIncludes m "abort") = false → ¬ m = "" →
      onerror f s (some m) = disconnect f { s with error := some m } ∧
      (onerror f s (some m)).1.error = some m ∧
      (onerror f s (some m)).1.session = none ∧
      (onerror f s (some m)).1.audioContext = none ∧
      (onerror f s (some m)).1.inputAudioContext = none ∧
      (onerror f s (some m)).1.mediaStream = none ∧
      (onerror f s (some m)).1.scriptProcessor = none) ∧
    (∀ em : Option String,
      (connectFailure f s em).1.error.isSome = true ∧
      (connectFailure f s em).1.session = none ∧
      (connectFailure f s em).1.audioContext = none ∧
      (connectFailure f s em).1.inputAudioContext = none ∧
      (connectFailure f s em).1.mediaStream = none ∧
      (connectFailure f s em).1.scriptProcessor = none ∧
      (connectFailure f s em).1.isConnected = false ∧
      (connectFailure f s em).1.isConnecting = false) := by
  refine ⟨fun hb => ?_, fun hb hm => ?_, fun em => ?_⟩
  · simp [onerror, hb]
  · refine ⟨?_, ?_⟩ <;> simp [onerror, hb, hm, disconnect]
  · rcases em with _ | m2 <;> simp [connectFailure, disconnect]

theorem error_policy_witness :
    onerror noFail stConnected (some "Request was interrupted by the user") =
      (stConnected, []) ∧
    (onerror noFail stConnected (some "quota exceeded")).1.error =
      some "quota exceeded" ∧
    (connectFailure noFail stConnected none).1.error.isSome = true :=
  ⟨(error_policy noFail stConnected "Request was interrupted by the user").1 (by decide),
   ((error_policy noFail stConnected "quota exceeded").2.1 (by decide) (by decide)).2.1,
   ((error_policy noFail stConnected "boom").2.2 none).1⟩

/-- C8: an inbound audio payload whose byte length is odd fails to decode
with a DecodeError, and the handler catches it: the chunk is dropped, the
state (cursor and active playback set included) is unchanged, no effect is
produced and nothing propagates to the caller. -/
theorem decode_failure_drops_chunk (s : SessionState) (bytes : List ℕ)
    (now : ℚ) (flag : Bool)
    (hconn : s.isConnectedRef = true) (hctx : s.audioContext = some ())
    (hodd : bytes.length % 2 = 1) :
    decodeAudioData bytes =
      Except.error "DecodeError: byte length is not a multiple of 2" ∧
    onmessage s ⟨none, some bytes, false⟩ now flag = (s, []) := by
  have hne : ¬ bytes.length % 2 = 0 := by omega
  constructor
  · simp [decodeAudioData, hne]
  · simp [onmessage, handleToolCall, handleInterruptedFlag, decodeAudioData,
      hconn, hctx, hne]

theorem decode_failure_drops_chunk_witness :
    decodeAudioData [7] =
      Except.error "DecodeError: byte length is not a multiple of 2" ∧
    onmessage stConnected ⟨none, some [7], false⟩ 2 true = (stConnected, []) :=
  decode_failure_drops_chunk stConnected [7] 2 true rfl rfl rfl

/-- C1: for every run of inbound buffers with nonnegative durations arriving
at arbitrary clock times, the start times computed by the scheduling rule
`start = max(currentClockTime, nextStartTime); nextStartTime := start + dur`
are non-decreasing, buffer `i+1` starts no earlier than buffer `i`'s start
plus buffer `i`'s duration (no overlap), and when buffer `i+1` arrives while
the timeline is still ahead of the clock it starts exactly at buffer `i`'s
end (no gap). -/
theorem playback_timeline (arr : List (ℚ × ℚ)) :
    ∀ (next0 : ℚ) (i : ℕ) (s1 s2 : ℚ) (a b : ℚ × ℚ),
      (∀ p ∈ arr, 0 ≤ p.2) →
      (scheduleTimes next0 arr)[i]? = some s1 →
      (scheduleTimes next0 arr)[i + 1]? = some s2 →
      arr[i]? = some a →
      arr[i + 1]? = some b →
      s1 ≤ s2 ∧ s1 + a.2 ≤ s2 ∧ (b.1 ≤ s1 + a.2 → s2 = s1 + a.2) := by
  induction arr with
  | nil =>
    intro next0 i s1 s2 a b hd h1 h2 h3 h4
    simp [scheduleTimes] at h1
  | cons a0 rest ih =>
    intro next0 i s1 s2 a b hd h1 h2 h3 h4
    cases rest with
    | nil =>
      cases i with
      | zero => simp [scheduleTimes] at h2
      | succ j => simp [scheduleTimes] at h1
    | cons b0 rest2 =>
      cases i with
      | zero =>
        have ha2 : 0 ≤ a0.2 := hd a0 (List.mem_cons_self a0 _)
        simp only [scheduleTimes, scheduleStep, List.getElem?_cons_zero,
          List.getElem?_cons_succ, Option.some.injEq] at h1 h2 h3 h4
        subst h1 h2 h3 h4
        refine ⟨?_, le_max_right _ _, fun hq => max_eq_right hq⟩
        exact le_trans (le_add_of_nonneg_right ha2) (le_max_right _ _)
      | succ j =>
        have hd2 : ∀ p ∈ b0 :: rest2, 0 ≤ p.2 :=
          fun p hp => hd p (List.mem_cons_of_mem a0 hp)
        have h1s : (scheduleTimes (scheduleStep next0 a0.1 a0.2).2 (b0 :: rest2))[j]? = some s1 := by
          simpa [scheduleTimes, scheduleStep] using h1
        have h2s : (scheduleTimes (scheduleStep next0 a0.1 a0.2).2 (b0 :: rest2))[j + 1]? = some s2 := by
          simpa [scheduleTimes, scheduleStep] using h2
        have h3s : (b0 :: rest2)[j]? = some a := by simpa using h3
        have h4s : (b0 :: rest2)[j + 1]? = some b := by simpa using h4
        exact ih (scheduleStep next0 a0.1 a0.2).2 j s1 s2 a b hd2 h1s h2s h3s h4s

theorem playback_timeline_witness :
    (0 : ℚ) ≤ 1 ∧ (0 : ℚ) + 1 ≤ 1 ∧ (1 : ℚ) = 0 + 1 := by
  have h := playback_timeline [(0, 1), (0, 1), (2, 1)] 0 0 0 1
    (0, 1) (0, 1) (by norm_num)
    (by norm_num [scheduleTimes, scheduleStep])
    (by norm_num [scheduleTimes, scheduleStep]) rfl rfl
  exact ⟨h.1, h.2.1, h.2.2 (by norm_num)⟩

/-! ## Codec round-trip lemmas -/

theorem floatToInt16_lb (x : ℚ) : -32768 ≤ floatToInt16 x :=
  le_max_left _ _

theorem floatToInt16_ub (x : ℚ) : floatToInt16 x ≤ 32767 :=
  max_le (by norm_num) (min_le_left _ _)

theorem bytesToInt16_of_int16 (i : ℤ) (hlb : -32768 ≤ i) (hub : i ≤ 32767) :
    bytesToInt16 ((i % 65536).toNat % 256) ((i % 65536).toNat / 256) = i := by
  have h0 : (0 : ℤ) ≤ i % 65536 := Int.emod_nonneg i (by norm_num)
  have hn : (((i % 65536).toNat : ℤ)) = i % 65536 := Int.toNat_of_nonneg h0
  simp only [bytesToInt16]
  split <;> omega

theorem decodePairs_int16 (i : ℤ) (hlb : -32768 ≤ i) (hub : i ≤ 32767)
    (rest : List ℕ) :
    decodePairs (int16ToBytes i ++ rest) = ((i : ℚ) / 32768) :: decodePairs rest := by
  simp only [int16ToBytes, List.cons_append, List.nil_append, decodePairs]
  rw [bytesToInt16_of_int16 i hlb hub]
  rfl

theorem floatToInt16_close (x : ℚ) (h1 : -1 ≤ x) (h2 : x ≤ 1) :
    |(floatToInt16 x : ℚ) - x * 32768| ≤ 1 := by
  have hc : clampUnit x = x := by
    unfold clampUnit
    rw [min_eq_right h2, max_eq_right h1]
  unfold floatToInt16
  rw [hc]
  set r := round (x * 32768) with hrdef
  have hround : |x * 32768 - (r : ℚ)| ≤ 1 / 2 := abs_sub_round (x * 32768)
  rw [abs_le] at hround
  have hub2 : x * 32768 ≤ 32768 := by nlinarith
  have hlb2 : -32768 ≤ x * 32768 := by nlinarith
  rcases le_or_lt r 32767 with hle | hgt
  · rcases le_or_lt (-32768 : ℤ) r with hge | hlt
    · rw [min_eq_right hle, max_eq_right hge, abs_le]
      constructor <;> linarith [hround.1, hround.2]
    · exfalso
      have hr1 : r ≤ -32769 := by omega
      have hr2 : (r : ℚ) ≤ -32769 := by exact_mod_cast hr1
      linarith [hround.2]
  · have hge : (32768 : ℤ) ≤ r := by omega
    have hq : (32768 : ℚ) ≤ (r : ℚ) := by exact_mod_cast hge
    rw [min_eq_left (by omega : (32767 : ℤ) ≤ r),
      max_eq_right (by norm_num : (-32768 : ℤ) ≤ 32767), abs_le]
    push_cast
    constructor <;> linarith [hround.1, hround.2]

theorem roundtrip_sample (x : ℚ) (h1 : -1 ≤ x) (h2 : x ≤ 1) :
    |(floatToInt16 x : ℚ) / 32768 - x| ≤ 1 / 32768 := by
  have h := floatToInt16_close x h1 h2
  have hrw : (floatToInt16 x : ℚ) / 32768 - x =
      ((floatToInt16 x : ℚ) - x * 32768) / 32768 := by ring
  rw [hrw, abs_div, (by norm_num : |(32768 : ℚ)| = 32768)]
  linarith

theorem createPcmBlob_cons (x : ℚ) (xs : List ℚ) :
    createPcmBlob (x :: xs) = int16ToBytes (floatToInt16 x) ++ createPcmBlob xs := by
  simp [createPcmBlob]

theorem int16ToBytes_length (i : ℤ) : (int16ToBytes i).length = 2 := rfl

theorem createPcmBlob_length (xs : List ℚ) :
    (createPcmBlob xs).length = 2 * xs.length := by
  induction xs with
  | nil => rfl
  | cons x xs ih =>
    rw [createPcmBlob_cons]
    simp only [List.length_append, List.length_cons, ih, int16ToBytes_length]
    omega

theorem decodePairs_createPcmBlob (xs : List ℚ) :
    decodePairs (createPcmBlob xs) =
      xs.map (fun x => (floatToInt16 x : ℚ) / 32768) := by
  induction xs with
  | nil => rfl
  | cons x xs ih =>
    rw [createPcmBlob_cons,
      decodePairs_int16 _ (floatToInt16_lb x) (floatToInt16_ub x), ih]
    rfl

/-- C9: encoding a sequence of samples in `[-1, 1]` and decoding the
resulting bytes succeeds and reproduces the original samples within 16-bit
quantization error (at most `1/32768` per sample). -/
theorem pcm_roundtrip (xs : List ℚ) (hx : ∀ x ∈ xs, -1 ≤ x ∧ x ≤ 1) :
    ∃ ys : List ℚ,
      decodeAudioData (createPcmBlob xs) = Except.ok ys ∧
      ys.length = xs.length ∧
      ∀ (i : ℕ) (hi : i < ys.length) (hj : i < xs.length),
        |ys.get ⟨i, hi⟩ - xs.get ⟨i, hj⟩| ≤ 1 / 32768 := by
  refine ⟨decodePairs (createPcmBlob xs), ?_, ?_, ?_⟩
  · unfold decodeAudioData
    rw [createPcmBlob_length]
    simp
  · rw [decodePairs_createPcmBlob]
    simp
  · intro i hi hj
    have hmem : xs.get ⟨i, hj⟩ ∈ xs := List.get_mem xs i hj
    have hx2 := hx (xs.get ⟨i, hj⟩) hmem
    have hget : (decodePairs (createPcmBlob xs)).get ⟨i, hi⟩ =
        (floatToInt16 (xs.get ⟨i, hj⟩) : ℚ) / 32768 := by
      simp only [List.get_eq_getElem]
      rw [List.getElem_of_eq (decodePairs_createPcmBlob xs) hi]
      simp [List.getElem_map]
    rw [hget]
    exact roundtrip_sample _ hx2.1 hx2.2

theorem pcm_roundtrip_witness :
    ∃ ys : List ℚ,
      decodeAudioData (createPcmBlob [0, 1]) = Except.ok ys ∧
      ys.length = ([0, 1] : List ℚ).length ∧
      ∀ (i : ℕ) (hi : i < ys.length) (hj : i < ([0, 1] : List ℚ).length),
        |ys.get ⟨i, hi⟩ - ([0, 1] : List ℚ).get ⟨i, hj⟩| ≤ 1 / 32768 :=
  pcm_roundtrip [0, 1] (by
    intro x hx
    simp only [List.mem_cons, List.not_mem_nil, or_false] at hx
    rcases hx with rfl | rfl <;> constructor <;> norm_num)

end VietTrivia
